import Mathlib

/-!
Shallow embedding of the aerodrome-registry tooling
(`sync_aerodromes.py`, `release.py`) and proofs about it.

Conventions of the embedding:
* Python dicts are association lists `List (String × α)`; `List.lookup`
  models `d.get(k)` / `d[k]`, and `dictSet` models `d[k] = v`
  (replace in place, otherwise append — Python insertion order).
* JSON values are the inductive `JVal`.
* Fallible Python code (a raised exception aborting the run) is an
  `Option` result, `none` meaning the run aborted.
* The file system touched by `release.py` is the explicit record
  `ReleaseState`; timestamps are passed in as strings.
-/

namespace Aerodromes

/-- JSON values, as produced by `json.load` / consumed by `json.dump`. -/
inductive JVal where
  | str (s : String)
  | num (n : Int)
  | arr (xs : List JVal)
  | obj (kvs : List (String × JVal))

/-- Python `d[k] = v` on a dict modelled as an association list:
replace the value at the first occurrence of the key, keeping its
position, otherwise append the new binding at the end. -/
def dictSet {α : Type} : List (String × α) → String → α → List (String × α)
  | [], k, v => [(k, v)]
  | (k', v') :: rest, k, v =>
      if k' = k then (k, v) :: rest else (k', v') :: dictSet rest k v

/-- `field in sample` for the JSON values this pipeline passes around.
For an object it is key membership, for an array element membership of
the string; Python raises `TypeError` on other receivers, which the
release path never reaches because documents are JSON objects. -/
def jHasField : JVal → String → Bool
  | .obj kvs, f => (kvs.lookup f).isSome
  | .arr xs, f => xs.any (fun x => match x with | .str s => s == f | _ => false)
  | _, _ => false

/-- Field lookup on a JSON object (`none` on non-objects). -/
def jLookup : JVal → String → Option JVal
  | .obj kvs, k => kvs.lookup k
  | _, _ => none

/-- `required_fields` of `validate_staging` in `release.py`. -/
def requiredFields : List String := ["version", "last_updated", "total_count", "aerodromes"]

/-- `required_aerodrome_fields` of `validate_staging` in `release.py`. -/
def requiredAerodromeFields : List String := ["icao", "name", "country", "timezone"]

/-- `validate_staging` of `release.py`, applied to the parsed staging
document.  Checks the four required top-level fields, that `aerodromes`
is a list, that `total_count` equals its length, and — when the list is
non-empty — that the first record carries the four required record
fields.  `total_count != len(...)` is false for any non-numeric
`total_count`, hence the `num` match. -/
def validate_staging (doc : JVal) : Bool :=
  match doc with
  | .obj data =>
      requiredFields.all (fun f => (data.lookup f).isSome) &&
      (match data.lookup "aerodromes" with
       | some (.arr aerodromes) =>
           (match data.lookup "total_count" with
            | some (.num n) => n == (aerodromes.length : Int)
            | _ => false) &&
           (match aerodromes with
            | [] => true
            | sample :: _ => requiredAerodromeFields.all (fun f => jHasField sample f))
       | _ => false)
  | _ => false

/-- The artifacts `release.py` reads and writes: the staging file, the
production file (`none` = absent), and the backup directory as a list
of (file name, content) pairs in creation order. -/
structure ReleaseState where
  staging : Option JVal
  prod : Option JVal
  backups : List (String × JVal)

/-- `backup_production` of `release.py`: no production file means no
backup (returns `""`); otherwise copy production into a new
timestamp-named backup file and return its name. -/
def backup_production (st : ReleaseState) (timestamp : String) : String × ReleaseState :=
  match st.prod with
  | none => ("", st)
  | some p =>
      let backup_file := "backups/aerodromes_backup_" ++ timestamp ++ ".json"
      (backup_file, { st with backups := st.backups ++ [(backup_file, p)] })

/-- `release_to_production` of `release.py`.  `confirm` is the result of
the interactive prompt (`response in ['yes', 'y']`), consulted only when
`force` is off; `backupTs` and `releaseTs` are the two timestamps the
run draws.  Returns the boolean outcome and the resulting file system.
The non-object branch mirrors Python: the staging copy has already
overwritten production when `data['released_at'] = ...` raises, and the
handler returns failure. -/
def release_to_production (st : ReleaseState) (force confirm : Bool)
    (backupTs releaseTs : String) : Bool × ReleaseState :=
  match st.staging with
  | none => (false, st)
  | some staging =>
      if !(validate_staging staging) then (false, st)
      else if !force && !confirm then (false, st)
      else
        let st1 := (backup_production st backupTs).2
        match staging with
        | .obj kvs =>
            (true, { st1 with prod := some (.obj (dictSet kvs "released_at" (.str releaseTs))) })
        | other => (false, { st1 with prod := some other })

/-! ## Sync side: `sync_aerodromes.py` -/

/-- Python's `str.strip()` with no argument: remove leading and
trailing whitespace. -/
def trimChars (cs : List Char) : List Char :=
  ((cs.dropWhile Char.isWhitespace).reverse.dropWhile Char.isWhitespace).reverse

/-- Python's `s.strip()` on the string itself. -/
def pyStrip (s : String) : String := ⟨trimChars s.data⟩

/-- Split a character list at every separator (Python `str.split(sep)`
shape: `n` separators yield `n + 1` pieces). -/
def splitChars (p : Char → Bool) : List Char → List (List Char)
  | [] => [[]]
  | c :: cs =>
      if p c then [] :: splitChars p cs
      else
        match splitChars p cs with
        | piece :: rest => (c :: piece) :: rest
        | [] => [[c]]

/-- Digit-string value, `digitsVal ['1', '2', '3'] = 123`. -/
def digitsVal (cs : List Char) : Nat := cs.foldl (fun a c => 10 * a + (c.toNat - 48)) 0

/-- Mantissa of a Python float literal: `digits`, `digits.digits`,
`.digits` or `digits.` (at least one digit overall). -/
def parseMantissa (cs : List Char) : Option Rat :=
  match splitChars (fun c => c == '.') cs with
  | [ip] =>
      if !ip.isEmpty && ip.all Char.isDigit then some ((digitsVal ip : Nat) : Rat) else none
  | [ip, fp] =>
      if (!ip.isEmpty || !fp.isEmpty) && ip.all Char.isDigit && fp.all Char.isDigit then
        some ((digitsVal ip : Rat) + (digitsVal fp : Rat) / (10 : Rat) ^ fp.length)
      else none
  | _ => none

/-- Exponent part of a Python float literal: optional sign, then digits. -/
def parseExponent (cs : List Char) : Option Int :=
  let (sg, b) :=
    match cs with
    | '-' :: rest => ((-1 : Int), rest)
    | '+' :: rest => ((1 : Int), rest)
    | _ => ((1 : Int), cs)
  if !b.isEmpty && b.all Char.isDigit then some (sg * (digitsVal b : Int)) else none

/-- Python's `float(s)` on a string: `some` value on success, `none`
when `float` raises `ValueError`.  Surrounding whitespace and a leading
sign are accepted; `inf`/`infinity`/`nan` (any case) parse successfully
and their magnitude plays no role downstream, so they are carried as
`±1`; digit-separator underscores are not modelled. -/
def pyFloat (s : String) : Option Rat :=
  let t := trimChars s.data
  let (sign, body) :=
    match t with
    | '-' :: rest => ((-1 : Rat), rest)
    | '+' :: rest => ((1 : Rat), rest)
    | _ => ((1 : Rat), t)
  let lower := body.map Char.toLower
  if lower == "inf".data || lower == "infinity".data || lower == "nan".data then
    some sign
  else
    match splitChars (fun c => c == 'e' || c == 'E') body with
    | [m] => (parseMantissa m).map (fun q => sign * q)
    | [m, e] =>
        match parseMantissa m, parseExponent e with
        | some q, some k => some (sign * q * (10 : Rat) ^ k)
        | _, _ => none
    | _ => none

/-- The intermediate airport record built by `process_ourairports_data`. -/
structure Airport where
  name : String
  country_code : String
  latitude : Rat
  longitude : Rat
deriving DecidableEq

/-- A raw CSV row as handed out by `csv.DictReader`: column name to
string value; a key absent from the list models `row.get(k)` being
`None`. -/
abbrev Row := List (String × String)

/-- `extract_icao_code` of `sync_aerodromes.py`.  (Python's
`str.isalpha` is Unicode-alphabetic; `Char.isAlpha` restricts to ASCII
letters, which is what ICAO identifiers use.) -/
def extract_icao_code (row : Row) : Option String :=
  let icao_field := pyStrip ((row.lookup "icao_code").getD "")
  let ident_field := pyStrip ((row.lookup "ident").getD "")
  if icao_field != "" && icao_field.length == 4 then some icao_field
  else if ident_field != "" && ident_field.length == 4 && ident_field.data.all Char.isAlpha then
    some ident_field
  else none

/-- `float(row.get(k, 0)) if row.get(k) else 0`: an absent or empty
value is falsy and coerced to `0`; a present non-empty value goes
through `float`, whose `ValueError` (`none`) aborts the run. -/
def coerceCoord : Option String → Option Rat
  | none => some 0
  | some s => if s == "" then some 0 else pyFloat s

/-- The body of the row loop of `process_ourairports_data`: skip rows
whose stripped `type` is `"closed"`, skip rows with no usable ICAO
code, otherwise insert the normalized record under its ICAO key;
`none` when a numeric coercion raises. -/
def process_row (airports : List (String × Airport)) (row : Row) :
    Option (List (String × Airport)) :=
  if pyStrip ((row.lookup "type").getD "") == "closed" then some airports
  else
    match extract_icao_code row with
    | none => some airports
    | some icao =>
        match coerceCoord (row.lookup "latitude_deg"),
              coerceCoord (row.lookup "longitude_deg") with
        | some lat, some lon =>
            some (dictSet airports icao
              { name := pyStrip ((row.lookup "name").getD "")
                country_code := pyStrip ((row.lookup "iso_country").getD "")
                latitude := lat
                longitude := lon })
        | _, _ => none

/-- The row loop of `process_ourairports_data`, threading the airports
dict; an exception (`none`) aborts the remaining rows. -/
def process_rows (airports : List (String × Airport)) : List Row → Option (List (String × Airport))
  | [] => some airports
  | row :: rest =>
      match process_row airports row with
      | some airports' => process_rows airports' rest
      | none => none

/-- `process_ourairports_data` of `sync_aerodromes.py`, applied to the
already-tokenized CSV rows. -/
def process_ourairports_data (rows : List Row) : Option (List (String × Airport)) :=
  process_rows [] rows

/-- An operator override, a JSON object with an optional `icao` key and
optional `name`/`country`/`timezone` patches. -/
structure OverrideRecord where
  icao : Option String
  name : Option String
  country : Option String
  timezone : Option String
deriving DecidableEq

/-- The `stats` counters of `build_registry`. -/
structure MergeStats where
  matched : Nat
  fallback : Nat
  overrides : Nat
  overridden : Nat
deriving DecidableEq

/-- Modelled from the spec: `get_fallback_timezone` lives in the
`country_timezones` module, which is not among the sources here.  The
spec describes it as a country→timezone fallback table keyed by
`country_code`, with a failure to resolve defaulting to `"UTC"` rather
than erroring.  The table itself is a parameter. -/
def get_fallback_timezone (table : List (String × String)) (country_code : String) : String :=
  (table.lookup country_code).getD "UTC"

/-- The `override_lookup` dict comprehension of `build_registry`:
overrides carrying an `icao` key are inserted in sequence order, so a
later override for the same `icao` overwrites an earlier one. -/
def override_lookup (overrides : List OverrideRecord) : List (String × OverrideRecord) :=
  overrides.foldl
    (fun acc o => match o.icao with | some i => dictSet acc i o | none => acc) []

/-- A record of the final registry. -/
structure Entry where
  icao : String
  name : String
  country : String
  timezone : String
deriving DecidableEq

/-- The body of the first loop of `build_registry`: the entry produced
for one primary airport, applying the override (field-by-field, with
`"UTC"` when the override omits `timezone`), else the secondary
timezone when truthy, else the country fallback. -/
def resolve_entry (lookup : List (String × OverrideRecord)) (timezones : List (String × String))
    (fallbackTable : List (String × String)) (icao : String) (data : Airport) : Entry :=
  match lookup.lookup icao with
  | some o =>
      { icao := icao
        name := o.name.getD data.name
        country := o.country.getD data.country_code
        timezone := o.timezone.getD "UTC" }
  | none =>
      let timezone :=
        match timezones.lookup icao with
        | some tz => if tz == "" then get_fallback_timezone fallbackTable data.country_code else tz
        | none => get_fallback_timezone fallbackTable data.country_code
      { icao := icao, name := data.name, country := data.country_code, timezone := timezone }

/-- Whether the first loop resolved this airport's timezone from the
secondary source (the `matched` counter's condition). -/
def tz_matched (lookup : List (String × OverrideRecord)) (timezones : List (String × String))
    (icao : String) : Bool :=
  (lookup.lookup icao).isNone &&
    (match timezones.lookup icao with | some tz => tz != "" | none => false)

/-- The first loop of `build_registry`: one entry per primary airport,
in iteration order. -/
def primary_entries (lookup : List (String × OverrideRecord)) (timezones : List (String × String))
    (fallbackTable : List (String × String)) (airports : List (String × Airport)) : List Entry :=
  airports.map (fun p => resolve_entry lookup timezones fallbackTable p.1 p.2)

/-- The second loop of `build_registry`: a brand-new entry for every
override whose `icao` is not in `existing_icaos`.  Mirroring the
source, `existing_icaos` is the set computed once before the loop and
is not updated while entries are appended. -/
def new_override_entries (overrides : List OverrideRecord) (existing_icaos : List String) :
    List Entry :=
  overrides.filterMap (fun o =>
    match o.icao with
    | some i =>
        if existing_icaos.contains i then none
        else some { icao := i, name := o.name.getD "", country := o.country.getD "",
                    timezone := o.timezone.getD "UTC" }
    | none => none)

/-- The registry of `build_registry` just before the final sort: the
first-loop entries followed by the appended new-override entries. -/
def registry_before_sort (airports : List (String × Airport)) (timezones : List (String × String))
    (overrides : List OverrideRecord) (fallbackTable : List (String × String)) : List Entry :=
  let registry1 := primary_entries (override_lookup overrides) timezones fallbackTable airports
  registry1 ++ new_override_entries overrides (registry1.map (·.icao))

/-- `build_registry` of `sync_aerodromes.py`: first loop over the
primary airports, second loop appending new overrides, then
`registry.sort(key=lambda x: x['icao'])` — ascending, case-sensitive
ordinal string comparison — plus the diagnostic counters. -/
def build_registry (airports : List (String × Airport)) (timezones : List (String × String))
    (overrides : List OverrideRecord) (fallbackTable : List (String × String)) :
    List Entry × MergeStats :=
  let lookup := override_lookup overrides
  let registry := registry_before_sort airports timezones overrides fallbackTable
  let stats : MergeStats :=
    { matched := (airports.filter (fun p => tz_matched lookup timezones p.1)).length
      fallback := (airports.filter (fun p =>
        (lookup.lookup p.1).isNone && !(tz_matched lookup timezones p.1))).length
      overrides := (new_override_entries overrides
        ((primary_entries lookup timezones fallbackTable airports).map (·.icao))).length
      overridden := (airports.filter (fun p => (lookup.lookup p.1).isSome)).length }
  (registry.mergeSort (fun a b => decide (a.icao ≤ b.icao)), stats)

/-- One registry record as written to the staging JSON. -/
def entryToJVal (e : Entry) : JVal :=
  .obj [("icao", .str e.icao), ("name", .str e.name),
        ("country", .str e.country), ("timezone", .str e.timezone)]

/-- The registry document constructed in `main` of `sync_aerodromes.py`:
`total_count` is the length of the `aerodromes` sequence. -/
def mkRegistryDocument (version lastUpdated : String) (aerodromes : List Entry) : JVal :=
  .obj [("version", .str version), ("last_updated", .str lastUpdated),
        ("total_count", .num (aerodromes.length : Int)),
        ("aerodromes", .arr (aerodromes.map entryToJVal))]

/-! ## Helper lemmas -/

theorem lookup_dictSet {α : Type} (kvs : List (String × α)) (k : String) (v : α) (k' : String) :
    (dictSet kvs k v).lookup k' = if k' = k then some v else kvs.lookup k' := by
  induction kvs with
  | nil =>
      by_cases h : k' = k
      · subst h; simp [dictSet]
      · have hb : (k' == k) = false := beq_eq_false_iff_ne.mpr h
        simp [dictSet, List.lookup, hb, h]
  | cons p rest ih =>
      obtain ⟨a, b⟩ := p
      by_cases hak : a = k
      · subst hak
        by_cases h : k' = a
        · subst h; simp [dictSet, List.lookup]
        · have hb : (k' == a) = false := beq_eq_false_iff_ne.mpr h
          simp [dictSet, List.lookup, hb, h]
      · by_cases hak' : a = k'
        · subst hak'
          have hka : ¬ (a = k) := hak
          have hak2 : ¬ (k = a) := fun h => hka h.symm
          simp [dictSet, hka, List.lookup, hak2]
        · have hb : (k' == a) = false := beq_eq_false_iff_ne.mpr (Ne.symm hak')
          simp [dictSet, hak, List.lookup, hb, ih]

theorem backup_production_staging (st : ReleaseState) (ts : String) :
    (backup_production st ts).2.staging = st.staging := by
  rcases st with ⟨stg, prod, bks⟩
  cases prod <;> rfl

theorem validate_staging_obj {d : JVal} (h : validate_staging d = true) :
    ∃ kvs, d = .obj kvs := by
  cases d with
  | obj kvs => exact ⟨kvs, rfl⟩
  | str s => simp [validate_staging] at h
  | num n => simp [validate_staging] at h
  | arr xs => simp [validate_staging] at h

theorem release_success (st : ReleaseState) (kvs : List (String × JVal))
    (force confirm : Bool) (t t' : String)
    (hstag : st.staging = some (.obj kvs))
    (hval : validate_staging (.obj kvs) = true)
    (hconf : force = true ∨ confirm = true) :
    release_to_production st force confirm t t' =
      (true, { (backup_production st t).2 with
               prod := some (.obj (dictSet kvs "released_at" (.str t'))) }) := by
  unfold release_to_production
  rw [hstag]
  simp only [hval, Bool.not_true, Bool.false_eq_true, if_false]
  rcases hconf with h | h <;> simp [h]

/-! ## C7: failed validation or missing staging mutates nothing -/

/-- C7: when the staging file is missing, or strict validation of its
content fails, `release_to_production` returns failure and the state —
production artifact and backup set included — is exactly unchanged. -/
theorem release_no_mutation_on_invalid (st : ReleaseState) (force confirm : Bool)
    (backupTs releaseTs : String)
    (h : st.staging = none ∨ ∃ d, st.staging = some d ∧ validate_staging d = false) :
    release_to_production st force confirm backupTs releaseTs = (false, st) := by
  rcases h with h | ⟨d, hd, hval⟩
  · unfold release_to_production
    rw [h]
  · unfold release_to_production
    rw [hd]
    simp [hval]

/-- Witness for C7 at a concrete state with a missing staging file. -/
theorem release_no_mutation_on_invalid_witness :
    release_to_production ⟨none, some (.str "prod"), []⟩ true false "b" "r" =
      (false, ⟨none, some (.str "prod"), []⟩) :=
  release_no_mutation_on_invalid ⟨none, some (.str "prod"), []⟩ true false "b" "r"
    (Or.inl rfl)

/-! ## C6: promotion is idempotent under retry -/

/-- C6: promoting the same staging document twice (validation passing,
confirmation granted or forced) succeeds both times, and the two
resulting production documents agree on every field other than
`released_at`, which each run stamps with its own timestamp. -/
theorem release_idempotent_retry (st : ReleaseState) (d : JVal) (force confirm : Bool)
    (t1 t1' t2 t2' : String)
    (hstag : st.staging = some d)
    (hval : validate_staging d = true)
    (hconf : force = true ∨ confirm = true) :
    (release_to_production st force confirm t1 t1').1 = true ∧
    (release_to_production (release_to_production st force confirm t1 t1').2
        force confirm t2 t2').1 = true ∧
    ∃ p1 p2,
      (release_to_production st force confirm t1 t1').2.prod = some p1 ∧
      (release_to_production (release_to_production st force confirm t1 t1').2
          force confirm t2 t2').2.prod = some p2 ∧
      jLookup p1 "released_at" = some (.str t1') ∧
      jLookup p2 "released_at" = some (.str t2') ∧
      ∀ k, k ≠ "released_at" → jLookup p1 k = jLookup p2 k := by
  obtain ⟨kvs, rfl⟩ := validate_staging_obj hval
  have h1 := release_success st kvs force confirm t1 t1' hstag hval hconf
  have hstag1 : (release_to_production st force confirm t1 t1').2.staging =
      some (.obj kvs) := by
    rw [h1]
    simpa [backup_production_staging] using hstag
  have h2 := release_success (release_to_production st force confirm t1 t1').2 kvs
    force confirm t2 t2' hstag1 hval hconf
  refine ⟨by rw [h1], by rw [h2],
    .obj (dictSet kvs "released_at" (.str t1')),
    .obj (dictSet kvs "released_at" (.str t2')),
    by rw [h1], by rw [h2], ?_, ?_, ?_⟩
  · simp [jLookup, lookup_dictSet]
  · simp [jLookup, lookup_dictSet]
  · intro k hk
    simp [jLookup, lookup_dictSet, hk]

/-- A small well-formed staging document and a state holding it, used
as the concrete input of witnesses. -/
def sampleStagingDoc : JVal :=
  .obj [("version", .str "1"), ("last_updated", .str "ts"),
        ("total_count", .num 0), ("aerodromes", .arr [])]

/-- A file-system state whose staging slot holds `sampleStagingDoc`. -/
def sampleStagingState : ReleaseState := ⟨some sampleStagingDoc, none, []⟩

/-- Witness for C6 at a concrete state holding a valid staging
document. -/
theorem release_idempotent_retry_witness :
    sampleStagingState.staging = some sampleStagingDoc ∧
    validate_staging sampleStagingDoc = true ∧
    ((release_to_production sampleStagingState true false "b1" "r1").1 = true ∧
      (release_to_production (release_to_production sampleStagingState true false "b1" "r1").2
          true false "b2" "r2").1 = true ∧
      ∃ p1 p2,
        (release_to_production sampleStagingState true false "b1" "r1").2.prod = some p1 ∧
        (release_to_production (release_to_production sampleStagingState true false "b1" "r1").2
            true false "b2" "r2").2.prod = some p2 ∧
        jLookup p1 "released_at" = some (.str "r1") ∧
        jLookup p2 "released_at" = some (.str "r2") ∧
        ∀ k, k ≠ "released_at" → jLookup p1 k = jLookup p2 k) :=
  ⟨rfl, by decide,
   release_idempotent_retry sampleStagingState sampleStagingDoc true false "b1" "r1" "b2" "r2"
     rfl (by decide) (Or.inl rfl)⟩

/-! ## C2: what the release-path validation actually checks -/

/-- The aerodromes sequence of a staging document on which the
release-path validation is too weak: the first record is complete, the
second lacks `name`, `country` and `timezone`, and the two share the
`icao` code `"AAAA"`. -/
def c2BadRecords : List JVal :=
  [.obj [("icao", .str "AAAA"), ("name", .str "A"),
         ("country", .str "CH"), ("timezone", .str "UTC")],
   .obj [("icao", .str "AAAA")]]

/-- A staging document carrying `c2BadRecords` with a correct count. -/
def c2BadDoc : JVal :=
  .obj [("version", .str "1"), ("last_updated", .str "t"), ("total_count", .num 2),
        ("aerodromes", .arr c2BadRecords)]

/-- The `icao` string values of a record sequence. -/
def icaoStrings (records : List JVal) : List String :=
  records.filterMap (fun r =>
    match jLookup r "icao" with
    | some (.str s) => some s
    | _ => none)

/-- C2, counterexample: `validate_staging` accepts — and
`release_to_production` promotes — a staging document whose second
record is missing required fields and whose `icao` codes are
duplicated, refuting that the release path checks every record and
duplicate `icao`s. -/
theorem validate_staging_accepts_incomplete_duplicate_records :
    validate_staging c2BadDoc = true ∧
    (release_to_production ⟨some c2BadDoc, none, []⟩ true false "b" "r").1 = true ∧
    ¬ (c2BadRecords.all (fun rec =>
        requiredAerodromeFields.all (fun f => jHasField rec f)) = true) ∧
    ¬ (icaoStrings c2BadRecords).Nodup := by
  exact ⟨by decide, by decide, by decide, by decide⟩

/-- C2, amended: the validation run by the release path checks the four
top-level fields, the list shape and count of `aerodromes`, and the
required record fields on only the *first* record (there is no
duplicate-`icao` check); promotion proceeds only if this validation
passes. -/
theorem validate_staging_checks_first_record_only :
    (∀ (data : List (String × JVal)) (aero : List JVal),
        data.lookup "aerodromes" = some (.arr aero) →
        (validate_staging (.obj data) = true ↔
          ((∀ f ∈ requiredFields, (data.lookup f).isSome = true) ∧
           data.lookup "total_count" = some (.num (aero.length : Int)) ∧
           ∀ sample ∈ aero.take 1, ∀ f ∈ requiredAerodromeFields, jHasField sample f = true))) ∧
    (∀ (st : ReleaseState) (force confirm : Bool) (t1 t2 : String),
        (release_to_production st force confirm t1 t2).1 = true →
        ∃ d, st.staging = some d ∧ validate_staging d = true) := by
  constructor
  · intro data aero h
    simp only [validate_staging, h]
    cases hl : data.lookup "total_count" with
    | none => simp
    | some v =>
        cases v with
        | num n =>
            cases aero with
            | nil => simp [beq_iff_eq]
            | cons s l => simp [List.all_eq_true, beq_iff_eq]
        | str s => simp
        | arr xs => simp
        | obj kvs => simp
  · intro st force confirm t1 t2 hrel
    cases hstag : st.staging with
    | none => simp [release_to_production, hstag] at hrel
    | some d =>
        refine ⟨d, rfl, ?_⟩
        by_contra hval
        have hv : validate_staging d = false := by
          cases hvv : validate_staging d
          · rfl
          · exact absurd hvv hval
        simp [release_to_production, hstag, hv] at hrel

/-- Witness for C2's amended theorem: a successful concrete promotion
implies its staging document passed `validate_staging`. -/
theorem validate_staging_checks_first_record_only_witness :
    (release_to_production ⟨some c2BadDoc, none, []⟩ true false "b" "r").1 = true ∧
    ∃ d, (⟨some c2BadDoc, none, []⟩ : ReleaseState).staging = some d ∧
      validate_staging d = true :=
  ⟨by decide,
   validate_staging_checks_first_record_only.2 ⟨some c2BadDoc, none, []⟩ true false "b" "r"
     (by decide)⟩

/-! ## Sync-side helper lemmas -/

theorem build_registry_fst (a : List (String × Airport)) (t : List (String × String))
    (o : List OverrideRecord) (fb : List (String × String)) :
    (build_registry a t o fb).1 =
      (registry_before_sort a t o fb).mergeSort (fun x y => decide (x.icao ≤ y.icao)) := rfl

theorem build_registry_perm (a : List (String × Airport)) (t : List (String × String))
    (o : List OverrideRecord) (fb : List (String × String)) :
    ((build_registry a t o fb).1).Perm (registry_before_sort a t o fb) := by
  rw [build_registry_fst]
  exact List.mergeSort_perm _ _

theorem mem_build_registry (a : List (String × Airport)) (t : List (String × String))
    (o : List OverrideRecord) (fb : List (String × String)) (e : Entry) :
    e ∈ (build_registry a t o fb).1 ↔ e ∈ registry_before_sort a t o fb :=
  (build_registry_perm a t o fb).mem_iff

theorem registry_before_sort_eq (a : List (String × Airport)) (t : List (String × String))
    (o : List OverrideRecord) (fb : List (String × String)) :
    registry_before_sort a t o fb =
      primary_entries (override_lookup o) t fb a ++
        new_override_entries o
          ((primary_entries (override_lookup o) t fb a).map (·.icao)) := rfl

theorem new_override_entries_append (x y : List OverrideRecord) (ex : List String) :
    new_override_entries (x ++ y) ex =
      new_override_entries x ex ++ new_override_entries y ex := by
  unfold new_override_entries
  exact List.filterMap_append x y _

theorem resolve_entry_of_override (lk : List (String × OverrideRecord))
    (tz fb : List (String × String)) (icao : String) (data : Airport) (o : OverrideRecord)
    (h : lk.lookup icao = some o) :
    resolve_entry lk tz fb icao data =
      { icao := icao, name := o.name.getD data.name,
        country := o.country.getD data.country_code,
        timezone := o.timezone.getD "UTC" } := by
  unfold resolve_entry
  rw [h]

theorem mem_registry_of_mem_airports (a : List (String × Airport))
    (t : List (String × String)) (o : List OverrideRecord) (fb : List (String × String))
    (icao : String) (data : Airport) (h : (icao, data) ∈ a) :
    resolve_entry (override_lookup o) t fb icao data ∈ (build_registry a t o fb).1 := by
  rw [mem_build_registry]
  unfold registry_before_sort
  apply List.mem_append_left
  exact List.mem_map_of_mem _ h

theorem override_lookup_go (l : List OverrideRecord) (acc : List (String × OverrideRecord))
    (i : String) :
    (l.foldl (fun acc o => match o.icao with | some j => dictSet acc j o | none => acc)
        acc).lookup i =
      match l.reverse.find? (fun ov => ov.icao == some i) with
      | some ov => some ov
      | none => acc.lookup i := by
  induction l generalizing acc with
  | nil => simp
  | cons o l ih =>
      simp only [List.foldl_cons, List.reverse_cons, List.find?_append]
      rw [ih]
      cases hf : l.reverse.find? (fun ov => ov.icao == some i) with
      | some ov => simp [Option.orElse]
      | none =>
          cases ho : o.icao with
          | none => simp [List.find?, ho, Option.orElse]
          | some j =>
              by_cases hj : j = i
              · subst hj
                simp [List.find?, ho, Option.orElse, lookup_dictSet]
              · have hji : ((some j : Option String) == some i) = false := by
                  simp [hj]
                have hij : ¬ (i = j) := fun h => hj h.symm
                simp [List.find?, ho, hji, Option.orElse, lookup_dictSet, hij]

theorem override_lookup_lookup (o : List OverrideRecord) (i : String) :
    (override_lookup o).lookup i =
      match o.reverse.find? (fun ov => ov.icao == some i) with
      | some ov => some ov
      | none => none := by
  unfold override_lookup
  rw [override_lookup_go]
  rfl

theorem mem_overrides_of_override_lookup (o : List OverrideRecord) (i : String)
    (ov : OverrideRecord) (h : (override_lookup o).lookup i = some ov) : ov ∈ o := by
  rw [override_lookup_lookup] at h
  cases hf : o.reverse.find? (fun x => x.icao == some i) with
  | none => rw [hf] at h; cases h
  | some ov' =>
      rw [hf] at h
      cases h
      exact List.mem_reverse.mp (List.mem_of_find?_eq_some hf)

/-! ## C8: the output is sorted ascending by icao -/

/-- C8: for every primary map, secondary map, override list and
fallback table — hence regardless of any iteration order — the
aerodromes sequence returned by `build_registry` is sorted ascending by
`icao` under the (case-sensitive, code-point) string order. -/
theorem build_registry_sorted_by_icao (a : List (String × Airport)) (t : List (String × String))
    (o : List OverrideRecord) (fb : List (String × String)) :
    ((build_registry a t o fb).1).Sorted (fun x y : Entry => x.icao ≤ y.icao) := by
  rw [build_registry_fst]
  have h := @List.sorted_mergeSort Entry (fun x y : Entry => decide (x.icao ≤ y.icao))
    (fun x y z hxy hyz => by
      simp only [decide_eq_true_eq] at *
      exact le_trans hxy hyz)
    (fun x y => by
      simp only [Bool.or_eq_true, decide_eq_true_eq]
      exact le_total x.icao y.icao)
    (registry_before_sort a t o fb)
  exact h.imp (fun hab => of_decide_eq_true hab)

/-! ## C4: override precedence over primary-derived fields -/

/-- C4: for an `icao` present in both the primary map and the override
lookup, the produced record takes `name`/`country` from the override
when supplied, keeps the primary-derived values when omitted, and takes
`timezone` from the override or defaults to `"UTC"` — the secondary
timezone map (arbitrary here) is never consulted. -/
theorem build_registry_override_precedence (a : List (String × Airport))
    (t : List (String × String)) (o : List OverrideRecord) (fb : List (String × String))
    (icao : String) (data : Airport) (ov : OverrideRecord)
    (hmem : (icao, data) ∈ a)
    (hov : (override_lookup o).lookup icao = some ov) :
    ({ icao := icao, name := ov.name.getD data.name,
       country := ov.country.getD data.country_code,
       timezone := ov.timezone.getD "UTC" } : Entry) ∈ (build_registry a t o fb).1 := by
  have h := mem_registry_of_mem_airports a t o fb icao data hmem
  rwa [resolve_entry_of_override _ _ _ _ _ _ hov] at h

/-- Witness for C4: an override supplying only `name` patches the name,
keeps the primary country, and falls back to `"UTC"` even though the
secondary map knows a timezone for this `icao`. -/
theorem build_registry_override_precedence_witness :
    ("AAAA", ({ name := "A", country_code := "CH", latitude := 0, longitude := 0 } : Airport)) ∈
      [("AAAA", ({ name := "A", country_code := "CH", latitude := 0, longitude := 0 } : Airport))] ∧
    (override_lookup [⟨some "AAAA", some "N", none, none⟩]).lookup "AAAA" =
      some ⟨some "AAAA", some "N", none, none⟩ ∧
    ({ icao := "AAAA", name := "N", country := "CH", timezone := "UTC" } : Entry) ∈
      (build_registry [("AAAA", ⟨"A", "CH", 0, 0⟩)] [("AAAA", "Europe/Zurich")]
        [⟨some "AAAA", some "N", none, none⟩] []).1 :=
  ⟨List.mem_singleton.mpr rfl, by decide,
   build_registry_override_precedence [("AAAA", ⟨"A", "CH", 0, 0⟩)]
     [("AAAA", "Europe/Zurich")] [⟨some "AAAA", some "N", none, none⟩] []
     "AAAA" ⟨"A", "CH", 0, 0⟩ ⟨some "AAAA", some "N", none, none⟩
     (List.mem_singleton.mpr rfl) (by decide)⟩

/-! ## C9: the last override for an icao wins -/

theorem resolve_entry_icao (lk : List (String × OverrideRecord)) (tz fb : List (String × String))
    (i : String) (d : Airport) : (resolve_entry lk tz fb i d).icao = i := by
  unfold resolve_entry
  cases lk.lookup i <;> rfl

theorem primary_entries_icaos (lk : List (String × OverrideRecord))
    (t fb : List (String × String)) (a : List (String × Airport)) :
    (primary_entries lk t fb a).map (·.icao) = a.map Prod.fst := by
  unfold primary_entries
  rw [List.map_map]
  exact List.map_congr_left (fun p _ => resolve_entry_icao lk t fb p.1 p.2)

theorem value_eq_of_keys_nodup {α : Type} (l : List (String × α))
    (hkeys : (l.map Prod.fst).Nodup) (k : String) (v1 v2 : α)
    (h1 : (k, v1) ∈ l) (h2 : (k, v2) ∈ l) : v1 = v2 := by
  induction l with
  | nil => cases h1
  | cons p rest ih =>
      rw [List.map_cons, List.nodup_cons] at hkeys
      rcases List.mem_cons.mp h1 with h1e | h1'
      · rcases List.mem_cons.mp h2 with h2e | h2'
        · exact congrArg Prod.snd (h1e.trans h2e.symm)
        · rw [← h1e] at hkeys
          exact absurd (List.mem_map_of_mem Prod.fst h2') hkeys.1
      · rcases List.mem_cons.mp h2 with h2e | h2'
        · rw [← h2e] at hkeys
          exact absurd (List.mem_map_of_mem Prod.fst h1') hkeys.1
        · exact ih hkeys.2 h1' h2'

theorem icao_not_mem_of_mem_new_override_entries (o : List OverrideRecord) (ex : List String)
    (e : Entry) (he : e ∈ new_override_entries o ex) : e.icao ∉ ex := by
  unfold new_override_entries at he
  obtain ⟨ov, hovmem, hf⟩ := List.mem_filterMap.mp he
  cases hoi : ov.icao with
  | none => rw [hoi] at hf; cases hf
  | some i =>
      rw [hoi] at hf
      have hf' : i ∉ ex ∧
          ({ icao := i, name := ov.name.getD "", country := ov.country.getD "",
             timezone := ov.timezone.getD "UTC" } : Entry) = e := by
        simpa using hf
      rw [← hf'.2]
      exact hf'.1

theorem new_override_entries_cons_skip (o : List OverrideRecord) (ov' : OverrideRecord)
    (ex : List String) (i : String) (hov' : ov'.icao = some i) (hmem : i ∈ ex) :
    new_override_entries (ov' :: o) ex = new_override_entries o ex := by
  unfold new_override_entries
  exact List.filterMap_cons_none (by simp [hov', hmem])

theorem find?_reverse_erase_earlier (o1 o2 : List OverrideRecord) (ov' : OverrideRecord)
    (icao i : String) (hov' : ov'.icao = some icao)
    (hlater : ∃ ov2 ∈ o2, ov2.icao = some icao) :
    (o1 ++ ov' :: o2).reverse.find? (fun x => x.icao == some i) =
      (o1 ++ o2).reverse.find? (fun x => x.icao == some i) := by
  have hrev1 : (o1 ++ ov' :: o2).reverse = o2.reverse ++ ov' :: o1.reverse := by simp
  have hrev2 : (o1 ++ o2).reverse = o2.reverse ++ o1.reverse := by simp
  rw [hrev1, hrev2, List.find?_append, List.find?_append]
  by_cases hi : i = icao
  · subst hi
    obtain ⟨ov2, hm2, hic2⟩ := hlater
    have hs : (o2.reverse.find? (fun x => x.icao == some i)).isSome = true :=
      List.find?_isSome.mpr ⟨ov2, List.mem_reverse.mpr hm2, by simp [hic2]⟩
    obtain ⟨ov3, h3⟩ := Option.isSome_iff_exists.mp hs
    rw [h3]
    rfl
  · have hp : (ov'.icao == some i) = false := by
      rw [hov']
      exact beq_eq_false_iff_ne.mpr (fun h => hi (Option.some.inj h).symm)
    have hskip : (ov' :: o1.reverse).find? (fun x => x.icao == some i) =
        o1.reverse.find? (fun x => x.icao == some i) := by
      simp [List.find?, hp]
    rw [hskip]

theorem override_lookup_erase_earlier (o1 o2 : List OverrideRecord) (ov' : OverrideRecord)
    (icao : String) (hov' : ov'.icao = some icao)
    (hlater : ∃ ov2 ∈ o2, ov2.icao = some icao) (i : String) :
    (override_lookup (o1 ++ ov' :: o2)).lookup i = (override_lookup (o1 ++ o2)).lookup i := by
  rw [override_lookup_lookup, override_lookup_lookup,
    find?_reverse_erase_earlier o1 o2 ov' icao i hov' hlater]

theorem build_registry_snd (a : List (String × Airport)) (t : List (String × String))
    (o : List OverrideRecord) (fb : List (String × String)) :
    (build_registry a t o fb).2 =
      { matched := (a.filter (fun p => tz_matched (override_lookup o) t p.1)).length
        fallback := (a.filter (fun p => ((override_lookup o).lookup p.1).isNone &&
          !(tz_matched (override_lookup o) t p.1))).length
        overrides := (new_override_entries o
          ((primary_entries (override_lookup o) t fb a).map (·.icao))).length
        overridden :=
          (a.filter (fun p => ((override_lookup o).lookup p.1).isSome)).length } := rfl

/-- C9: when the overrides sequence holds several records for an
`icao` that is present in the primary map, the record produced for
that `icao` is exactly the one derived from the *last* such override:
it is in the output, every output record carrying that `icao` equals
it (the primary map has unique keys), and deleting an earlier override
for that `icao` leaves the entire result of `build_registry` — records
and statistics — unchanged. -/
theorem build_registry_last_override_wins (a : List (String × Airport))
    (t fb : List (String × String)) (o1 o2 : List OverrideRecord)
    (ov' ov : OverrideRecord) (icao : String) (data : Airport)
    (hmem : (icao, data) ∈ a)
    (hkeys : (a.map Prod.fst).Nodup)
    (hov' : ov'.icao = some icao)
    (hlater : ∃ ov2 ∈ o2, ov2.icao = some icao)
    (hlast : (o1 ++ ov' :: o2).reverse.find? (fun x => x.icao == some icao) = some ov) :
    ({ icao := icao, name := ov.name.getD data.name,
       country := ov.country.getD data.country_code,
       timezone := ov.timezone.getD "UTC" } : Entry) ∈
      (build_registry a t (o1 ++ ov' :: o2) fb).1 ∧
    (∀ e ∈ (build_registry a t (o1 ++ ov' :: o2) fb).1, e.icao = icao →
      e = { icao := icao, name := ov.name.getD data.name,
            country := ov.country.getD data.country_code,
            timezone := ov.timezone.getD "UTC" }) ∧
    build_registry a t (o1 ++ ov' :: o2) fb = build_registry a t (o1 ++ o2) fb := by
  have hovlk : (override_lookup (o1 ++ ov' :: o2)).lookup icao = some ov := by
    rw [override_lookup_lookup, hlast]
  refine ⟨?_, ?_, ?_⟩
  · have h := mem_registry_of_mem_airports a t (o1 ++ ov' :: o2) fb icao data hmem
    rwa [resolve_entry_of_override _ _ _ _ _ _ hovlk] at h
  · intro e he heq
    rw [mem_build_registry, registry_before_sort_eq] at he
    rcases List.mem_append.mp he with h1 | h2
    · unfold primary_entries at h1
      obtain ⟨p, hp, rfl⟩ := List.mem_map.mp h1
      have hp1 : p.1 = icao := by
        rw [← resolve_entry_icao (override_lookup (o1 ++ ov' :: o2)) t fb p.1 p.2]
        exact heq
      have hpe : (icao, p.2) = p := by rw [← hp1]
      have hdata : p.2 = data :=
        value_eq_of_keys_nodup a hkeys icao p.2 data (hpe ▸ hp) hmem
      rw [hp1, hdata, resolve_entry_of_override _ _ _ _ _ _ hovlk]
    · have hin : e.icao ∈ (primary_entries (override_lookup (o1 ++ ov' :: o2)) t fb a).map
          (·.icao) := by
        rw [heq, primary_entries_icaos]
        exact List.mem_map_of_mem Prod.fst hmem
      exact absurd hin (icao_not_mem_of_mem_new_override_entries _ _ e h2)
  · have hlk := override_lookup_erase_earlier o1 o2 ov' icao hov' hlater
    have hres : ∀ p : String × Airport,
        resolve_entry (override_lookup (o1 ++ ov' :: o2)) t fb p.1 p.2 =
          resolve_entry (override_lookup (o1 ++ o2)) t fb p.1 p.2 := by
      intro p
      unfold resolve_entry
      rw [hlk p.1]
    have hprim : primary_entries (override_lookup (o1 ++ ov' :: o2)) t fb a =
        primary_entries (override_lookup (o1 ++ o2)) t fb a := by
      unfold primary_entries
      exact List.map_congr_left (fun p _ => hres p)
    have hexB : icao ∈ (primary_entries (override_lookup (o1 ++ o2)) t fb a).map (·.icao) := by
      rw [primary_entries_icaos]
      exact List.mem_map_of_mem Prod.fst hmem
    have hnew : new_override_entries (o1 ++ ov' :: o2)
        ((primary_entries (override_lookup (o1 ++ o2)) t fb a).map (·.icao)) =
        new_override_entries (o1 ++ o2)
          ((primary_entries (override_lookup (o1 ++ o2)) t fb a).map (·.icao)) := by
      rw [new_override_entries_append, new_override_entries_append,
        new_override_entries_cons_skip o2 ov' _ icao hov' hexB]
    have hreg : registry_before_sort a t (o1 ++ ov' :: o2) fb =
        registry_before_sort a t (o1 ++ o2) fb := by
      rw [registry_before_sort_eq, registry_before_sort_eq, hprim, hnew]
    have hm : a.filter (fun p => tz_matched (override_lookup (o1 ++ ov' :: o2)) t p.1) =
        a.filter (fun p => tz_matched (override_lookup (o1 ++ o2)) t p.1) :=
      List.filter_congr (fun p _ => by unfold tz_matched; rw [hlk p.1])
    have hfb2 : a.filter (fun p => ((override_lookup (o1 ++ ov' :: o2)).lookup p.1).isNone &&
        !(tz_matched (override_lookup (o1 ++ ov' :: o2)) t p.1)) =
        a.filter (fun p => ((override_lookup (o1 ++ o2)).lookup p.1).isNone &&
          !(tz_matched (override_lookup (o1 ++ o2)) t p.1)) :=
      List.filter_congr (fun p _ => by unfold tz_matched; rw [hlk p.1])
    have hod : a.filter (fun p => ((override_lookup (o1 ++ ov' :: o2)).lookup p.1).isSome) =
        a.filter (fun p => ((override_lookup (o1 ++ o2)).lookup p.1).isSome) :=
      List.filter_congr (fun p _ => by rw [hlk p.1])
    refine Prod.ext_iff.mpr ⟨?_, ?_⟩
    · rw [build_registry_fst, build_registry_fst, hreg]
    · rw [build_registry_snd, build_registry_snd, hm, hfb2, hod, hprim, hnew]

/-- Witness for C9: with two overrides for `"AAAA"`, the record
produced is the second one's; it is the only `"AAAA"` record, and
deleting the first override changes nothing. -/
theorem build_registry_last_override_wins_witness :
    ("AAAA", ({ name := "A", country_code := "CH", latitude := 0, longitude := 0 } : Airport)) ∈
      [("AAAA", ({ name := "A", country_code := "CH", latitude := 0, longitude := 0 } : Airport))] ∧
    (([("AAAA", ({ name := "A", country_code := "CH", latitude := 0, longitude := 0 } :
        Airport))].map Prod.fst).Nodup) ∧
    (⟨some "AAAA", some "first", none, none⟩ : OverrideRecord).icao = some "AAAA" ∧
    (∃ ov2 ∈ [(⟨some "AAAA", some "second", none, some "Asia/Tokyo"⟩ : OverrideRecord)],
      ov2.icao = some "AAAA") ∧
    (([] ++ (⟨some "AAAA", some "first", none, none⟩ : OverrideRecord) ::
        [⟨some "AAAA", some "second", none, some "Asia/Tokyo"⟩]).reverse.find?
        (fun x : OverrideRecord => x.icao == some "AAAA") =
      some ⟨some "AAAA", some "second", none, some "Asia/Tokyo"⟩) ∧
    (({ icao := "AAAA", name := "second", country := "CH", timezone := "Asia/Tokyo" } : Entry) ∈
      (build_registry [("AAAA", ⟨"A", "CH", 0, 0⟩)] []
        ([] ++ (⟨some "AAAA", some "first", none, none⟩ : OverrideRecord) ::
          [⟨some "AAAA", some "second", none, some "Asia/Tokyo"⟩]) []).1 ∧
    (∀ e ∈ (build_registry [("AAAA", ⟨"A", "CH", 0, 0⟩)] []
        ([] ++ (⟨some "AAAA", some "first", none, none⟩ : OverrideRecord) ::
          [⟨some "AAAA", some "second", none, some "Asia/Tokyo"⟩]) []).1, e.icao = "AAAA" →
      e = { icao := "AAAA", name := "second", country := "CH", timezone := "Asia/Tokyo" }) ∧
    build_registry [("AAAA", ⟨"A", "CH", 0, 0⟩)] []
        ([] ++ (⟨some "AAAA", some "first", none, none⟩ : OverrideRecord) ::
          [⟨some "AAAA", some "second", none, some "Asia/Tokyo"⟩]) [] =
      build_registry [("AAAA", ⟨"A", "CH", 0, 0⟩)] []
        ([] ++ [⟨some "AAAA", some "second", none, some "Asia/Tokyo"⟩]) []) :=
  ⟨List.mem_singleton.mpr rfl, by decide, rfl,
   ⟨⟨some "AAAA", some "second", none, some "Asia/Tokyo"⟩, List.mem_singleton.mpr rfl, rfl⟩,
   by decide,
   build_registry_last_override_wins [("AAAA", ⟨"A", "CH", 0, 0⟩)] [] [] []
     [⟨some "AAAA", some "second", none, some "Asia/Tokyo"⟩]
     ⟨some "AAAA", some "first", none, none⟩
     ⟨some "AAAA", some "second", none, some "Asia/Tokyo"⟩
     "AAAA" ⟨"A", "CH", 0, 0⟩
     (List.mem_singleton.mpr rfl) (by decide) rfl
     ⟨⟨some "AAAA", some "second", none, some "Asia/Tokyo"⟩, List.mem_singleton.mpr rfl, rfl⟩
     (by decide)⟩

theorem mem_of_lookup_eq_some {α : Type} {l : List (String × α)} {k : String} {v : α}
    (h : l.lookup k = some v) : (k, v) ∈ l := by
  induction l with
  | nil => cases h
  | cons p rest ih =>
      obtain ⟨a, b⟩ := p
      by_cases hak : k = a
      · subst hak
        simp only [List.lookup, beq_self_eq_true] at h
        cases h
        exact List.mem_cons_self _ _
      · have hb : (k == a) = false := beq_eq_false_iff_ne.mpr hak
        simp only [List.lookup, hb] at h
        exact List.mem_cons_of_mem _ (ih h)

/-! ## C1: duplicate icao codes reach the registry document -/

/-- Two overrides introducing the same brand-new `icao`. -/
def c1Overrides : List OverrideRecord :=
  [⟨some "ZZZZ", none, none, none⟩, ⟨some "ZZZZ", some "B", none, none⟩]

/-- C1, at the failing input: because the second loop of
`build_registry` never updates `existing_icaos` while appending, two
overrides for the same `icao` absent from primary both land in the
output; the enclosing document's `total_count` still equals the
sequence length, but the `icao` values are not unique. -/
theorem build_registry_duplicates_new_override_icaos :
    jLookup (mkRegistryDocument "1.0.0" "2026-01-01T00:00:00"
        (build_registry [] [] c1Overrides []).1) "total_count" =
      some (.num ((build_registry [] [] c1Overrides []).1.length : Int)) ∧
    (build_registry [] [] c1Overrides []).1.length = 2 ∧
    ¬ ((build_registry [] [] c1Overrides []).1.map (·.icao)).Nodup := by
  have hp := build_registry_perm [] [] c1Overrides []
  have hpre : registry_before_sort [] [] c1Overrides [] =
      [{ icao := "ZZZZ", name := "", country := "", timezone := "UTC" },
       { icao := "ZZZZ", name := "B", country := "", timezone := "UTC" }] := by decide
  rw [hpre] at hp
  refine ⟨rfl, hp.length_eq.trans rfl, ?_⟩
  have hm := hp.map (·.icao)
  rw [hm.nodup_iff]
  decide

/-! ## C5: timezone emptiness -/

/-- C5, counterexample: an override that supplies `timezone := ""` puts
the empty string straight into the finalized record. -/
theorem build_registry_empty_timezone_from_override :
    ({ icao := "AAAA", name := "A", country := "CH", timezone := "" } : Entry) ∈
      (build_registry [("AAAA", ⟨"A", "CH", 0, 0⟩)] []
        [⟨some "AAAA", none, none, some ""⟩] []).1 ∧
    ({ icao := "AAAA", name := "A", country := "CH", timezone := "" } : Entry).timezone = "" := by
  refine ⟨?_, rfl⟩
  rw [mem_build_registry]
  decide

theorem get_fallback_timezone_nonempty (fb : List (String × String)) (cc : String)
    (hfb : ∀ p ∈ fb, p.2 ≠ "") : get_fallback_timezone fb cc ≠ "" := by
  unfold get_fallback_timezone
  cases hl : fb.lookup cc with
  | none => simp
  | some v =>
      simp only [Option.getD_some]
      exact hfb (cc, v) (mem_of_lookup_eq_some hl)

theorem resolve_entry_timezone_nonempty (lk : List (String × OverrideRecord))
    (tz fb : List (String × String)) (icao : String) (data : Airport)
    (hov : ∀ ov tzv, lk.lookup icao = some ov → ov.timezone = some tzv → tzv ≠ "")
    (hfb : ∀ p ∈ fb, p.2 ≠ "") :
    (resolve_entry lk tz fb icao data).timezone ≠ "" := by
  unfold resolve_entry
  cases hov' : lk.lookup icao with
  | some ov =>
      cases hovtz : ov.timezone with
      | none => simp [hovtz]
      | some tzv => simpa [hovtz] using hov ov tzv hov' hovtz
  | none =>
      cases htz : tz.lookup icao with
      | some tzv =>
          by_cases he : tzv = ""
          · subst he
            simpa using get_fallback_timezone_nonempty fb data.country_code hfb
          · have hb : (tzv == "") = false := beq_eq_false_iff_ne.mpr he
            simpa [hb] using he
      | none => simpa using get_fallback_timezone_nonempty fb data.country_code hfb

theorem timezone_of_mem_new_override_entries (o : List OverrideRecord) (ex : List String)
    (e : Entry) (he : e ∈ new_override_entries o ex) :
    ∃ ov ∈ o, e.timezone = ov.timezone.getD "UTC" := by
  unfold new_override_entries at he
  obtain ⟨ov, hovmem, hf⟩ := List.mem_filterMap.mp he
  refine ⟨ov, hovmem, ?_⟩
  cases hoi : ov.icao with
  | none => rw [hoi] at hf; cases hf
  | some i =>
      rw [hoi] at hf
      have hf' : i ∉ ex ∧
          ({ icao := i, name := ov.name.getD "", country := ov.country.getD "",
             timezone := ov.timezone.getD "UTC" } : Entry) = e := by
        simpa using hf
      rw [← hf'.2]

/-- C5, amended: provided no override supplies an *empty* timezone
string and the fallback table's values are non-empty, every record in
the registry produced by `build_registry` has a non-empty timezone
(`"UTC"` whenever no source yields one). -/
theorem build_registry_timezone_nonempty (a : List (String × Airport))
    (t : List (String × String)) (o : List OverrideRecord) (fb : List (String × String))
    (hov : ∀ ov ∈ o, ∀ tzv, ov.timezone = some tzv → tzv ≠ "")
    (hfb : ∀ p ∈ fb, p.2 ≠ "") :
    ∀ e ∈ (build_registry a t o fb).1, e.timezone ≠ "" := by
  intro e he
  rw [mem_build_registry, registry_before_sort_eq] at he
  rcases List.mem_append.mp he with h1 | h2
  · unfold primary_entries at h1
    obtain ⟨p, hp, rfl⟩ := List.mem_map.mp h1
    exact resolve_entry_timezone_nonempty (override_lookup o) t fb p.1 p.2
      (fun ov tzv hlk htzv =>
        hov ov (mem_overrides_of_override_lookup o p.1 ov hlk) tzv htzv)
      hfb
  · obtain ⟨ov, hovmem, htz⟩ := timezone_of_mem_new_override_entries o _ e h2
    rw [htz]
    cases hovtz : ov.timezone with
    | none => simp
    | some tzv => simpa using hov ov hovmem tzv hovtz

/-- Witness for C5's amended theorem: a primary airport resolved
through a non-empty fallback table yields only non-empty timezones. -/
theorem build_registry_timezone_nonempty_witness :
    (∀ ov ∈ ([] : List OverrideRecord), ∀ tzv, ov.timezone = some tzv → tzv ≠ "") ∧
    (∀ p ∈ [("CH", "Europe/Zurich")], p.2 ≠ "") ∧
    ∀ e ∈ (build_registry [("AAAA", ⟨"A", "CH", 0, 0⟩)] [] []
        [("CH", "Europe/Zurich")]).1, e.timezone ≠ "" :=
  ⟨by simp, by decide,
   build_registry_timezone_nonempty [("AAAA", ⟨"A", "CH", 0, 0⟩)] [] []
     [("CH", "Europe/Zurich")] (by simp) (by decide)⟩

/-! ## C3: numeric coercion of latitude/longitude -/

/-- C3, counterexample: a row carrying a present but unparsable
`latitude_deg` makes `float(...)` raise, aborting the whole run — the
row is not coerced to `0` and not merely rejected. -/
theorem process_ourairports_aborts_on_unparsable :
    process_ourairports_data [[("ident", "AAAA"), ("latitude_deg", "abc")]] = none := by
  decide

theorem process_rows_isSome (rows : List Row)
    (h : ∀ row ∈ rows, (coerceCoord (row.lookup "latitude_deg")).isSome = true ∧
        (coerceCoord (row.lookup "longitude_deg")).isSome = true) :
    ∀ airports, (process_rows airports rows).isSome = true := by
  induction rows with
  | nil => intro a; simp [process_rows]
  | cons row rest ih =>
      intro a
      have hrow := h row (List.mem_cons_self _ _)
      have hrest := fun r hr => h r (List.mem_cons_of_mem _ hr)
      have hpr : (process_row a row).isSome = true := by
        unfold process_row
        cases hc : (pyStrip ((row.lookup "type").getD "") == "closed") with
        | true => simp [hc]
        | false =>
            cases hic : extract_icao_code row with
            | none => simp [hc, hic]
            | some icao =>
                obtain ⟨lat, hlat⟩ := Option.isSome_iff_exists.mp hrow.1
                obtain ⟨lon, hlon⟩ := Option.isSome_iff_exists.mp hrow.2
                simp [hc, hic, hlat, hlon]
      obtain ⟨a', ha'⟩ := Option.isSome_iff_exists.mp hpr
      unfold process_rows
      rw [ha']
      exact ih hrest a'

/-- C3, amended: an absent or empty `latitude_deg`/`longitude_deg`
value is coerced to `0`, and normalization never errors as long as
every coordinate value is absent, empty, or parsable as a float; a
present unparsable value, however, raises and aborts the run (shown by
the counterexample). -/
theorem process_ourairports_numeric_coercion :
    (∀ v : Option String, v = none ∨ v = some "" → coerceCoord v = some 0) ∧
    (∀ rows : List Row,
        (∀ row ∈ rows, (coerceCoord (row.lookup "latitude_deg")).isSome = true ∧
            (coerceCoord (row.lookup "longitude_deg")).isSome = true) →
        (process_ourairports_data rows).isSome = true) := by
  constructor
  · rintro v (rfl | rfl) <;> rfl
  · intro rows h
    exact process_rows_isSome rows h []

/-- Witness for C3's amended theorem: the empty value coerces to `0`,
and a run whose rows carry parsable or empty coordinates succeeds. -/
theorem process_ourairports_numeric_coercion_witness :
    ((some "" : Option String) = none ∨ (some "" : Option String) = some "") ∧
    coerceCoord (some "") = some 0 ∧
    (∀ row ∈ [[("ident", "AAAA"), ("latitude_deg", "47.45"), ("longitude_deg", "")]],
        (coerceCoord (row.lookup "latitude_deg")).isSome = true ∧
        (coerceCoord (row.lookup "longitude_deg")).isSome = true) ∧
    (process_ourairports_data
        [[("ident", "AAAA"), ("latitude_deg", "47.45"), ("longitude_deg", "")]]).isSome = true :=
  ⟨Or.inr rfl,
   process_ourairports_numeric_coercion.1 (some "") (Or.inr rfl),
   by decide,
   process_ourairports_numeric_coercion.2
     [[("ident", "AAAA"), ("latitude_deg", "47.45"), ("longitude_deg", "")]] (by decide)⟩

/-! ## C10: closed rows contribute nothing -/

/-- C10: a primary-source row whose stripped `type` is `"closed"` is
skipped by the normalizer: removing it from the input leaves the output
of `process_ourairports_data` unchanged, whatever ICAO code the row
carries. -/
theorem process_closed_row_contributes_nothing (row : Row)
    (hrow : pyStrip ((row.lookup "type").getD "") = "closed")
    (pre post : List Row) :
    process_ourairports_data (pre ++ row :: post) = process_ourairports_data (pre ++ post) := by
  have hstep : ∀ a, process_row a row = some a := by
    intro a
    unfold process_row
    simp [hrow]
  suffices h : ∀ a, process_rows a (pre ++ row :: post) = process_rows a (pre ++ post) from h []
  intro a
  induction pre generalizing a with
  | nil =>
      simp only [List.nil_append]
      unfold process_rows
      rw [hstep a]
      cases post <;> rfl
  | cons r rest ih =>
      simp only [List.cons_append]
      unfold process_rows
      cases hr : process_row a r with
      | none => rfl
      | some a' => exact ih a'

/-- Witness for C10 at a concrete closed row carrying a valid
4-letter identifier. -/
theorem process_closed_row_contributes_nothing_witness :
    pyStrip (([(("type" : String), (" closed " : String)),
        ("ident", "AAAA")].lookup "type").getD "") = "closed" ∧
    process_ourairports_data ([] ++ [(("type" : String), (" closed " : String)),
        ("ident", "AAAA")] :: []) = process_ourairports_data ([] ++ []) :=
  ⟨by decide,
   process_closed_row_contributes_nothing
     [(("type" : String), (" closed " : String)), ("ident", "AAAA")] (by decide) [] []⟩

end Aerodromes
